import Mathlib

/-!
Verification of the wiki-generator repository: a shallow embedding of
`code_analyzer.py`, `llm_manager.py` and `code_wiki_generator.py`.

Strings from the analyzed files are modelled as `String` (`List Char`
underneath).  Python's `re` patterns used by the analyzer are embedded as
dedicated matchers over `List Char`; every pattern in the source is a
sequence of literals and character classes where consecutive flexible
pieces draw from disjoint character sets, so greedy maximal-munch matching
is equivalent to the backtracking semantics of `re` (argued case by case
next to each matcher).  `re.finditer` is embedded as a left-to-right,
non-overlapping scan that attempts the matcher at every position.
-/

namespace WikiGen

/-- Python `\w` over the ASCII inputs considered here: letters, digits, underscore. -/
def isWordChar (c : Char) : Bool := c.isAlphanum || c = '_'

/-- Python `\s`: space, tab, newline, carriage return, vertical tab, form feed. -/
def isSpaceChar (c : Char) : Bool :=
  c = ' ' || c = '\t' || c = '\n' || c = '\r' || c = '\x0b' || c = '\x0c'

/-- Python `str.strip()`: drop whitespace from both ends. -/
def strip (l : List Char) : List Char :=
  ((l.dropWhile isSpaceChar).reverse.dropWhile isSpaceChar).reverse

/-- Python `str.split(sep)` for a one-character separator: `"".split(",") = [""]`. -/
def splitOnChar (sep : Char) : List Char → List (List Char)
  | [] => [[]]
  | c :: tl =>
    if c = sep then [] :: splitOnChar sep tl
    else
      match splitOnChar sep tl with
      | [] => [[c]]
      | h :: t => (c :: h) :: t

/-- Python `sep.join(parts)`. -/
def pyJoin (sep : String) : List String → String
  | [] => ""
  | [x] => x
  | x :: xs => x ++ sep ++ pyJoin sep xs

/-- Match a literal string at the head of the input, returning the rest. -/
def dropLit (pat : List Char) (l : List Char) : Option (List Char) :=
  if pat.isPrefixOf l then some (l.drop pat.length) else none

/-- Greedy `p+`: at least one character satisfying `p`; returns (taken, rest). -/
def chomp1 (p : Char → Bool) (l : List Char) : Option (List Char × List Char) :=
  let t := l.takeWhile p
  if t.isEmpty then none else some (t, l.drop t.length)

/-- Greedy `p*`: returns (taken, rest). -/
def chomp0 (p : Char → Bool) (l : List Char) : List Char × List Char :=
  (l.takeWhile p, l.dropWhile p)

/-- Matcher for `KW\s+(\w+)\s*\(([^)]*)\)` at the start of the input: the shape of
the Python fallback pattern (`KW = def`) and the first JavaScript pattern
(`KW = function`).  Returns (consumed length, name, raw argument capture).
Greedy matching is exact here: `\s+` is followed by `\w`, `\w+` by `\s*\(`,
`[^)]*` by `\)`, and each pair draws from disjoint character sets, so no
backtracking can produce a different match. -/
def matchKwNameParens (kw : List Char) (l : List Char) : Option (Nat × String × String) :=
  match dropLit kw l with
  | none => none
  | some r1 =>
  match chomp1 isSpaceChar r1 with
  | none => none
  | some (_, r2) =>
  match chomp1 isWordChar r2 with
  | none => none
  | some (nm, r3) =>
  match (chomp0 isSpaceChar r3).2 with
  | '(' :: r4 =>
    let args := r4.takeWhile (fun c => c ≠ ')')
    match r4.drop args.length with
    | ')' :: r5 => some (l.length - r5.length, String.mk nm, String.mk args)
    | _ => none
  | _ => none

/-- Matcher for the Python fallback pattern `def\s+(\w+)\s*\(([^)]*)\)`. -/
def matchPyDef : List Char → Option (Nat × String × String) :=
  matchKwNameParens ("def".data)

/-- Matcher for the JavaScript pattern `function\s+(\w+)\s*\(([^)]*)\)`. -/
def matchJsFunction : List Char → Option (Nat × String × String) :=
  matchKwNameParens ("function".data)

/-- Matcher for `KW\s+(\w+)\s*=\s*\(([^)]*)\)\s*=>`: the `const`/`let` arrow
patterns of the JavaScript extractor. -/
def matchKwArrow (kw : List Char) (l : List Char) : Option (Nat × String × String) :=
  match dropLit kw l with
  | none => none
  | some r1 =>
  match chomp1 isSpaceChar r1 with
  | none => none
  | some (_, r2) =>
  match chomp1 isWordChar r2 with
  | none => none
  | some (nm, r3) =>
  match (chomp0 isSpaceChar r3).2 with
  | '=' :: r4 =>
    match (chomp0 isSpaceChar r4).2 with
    | '(' :: r5 =>
      let args := r5.takeWhile (fun c => c ≠ ')')
      match r5.drop args.length with
      | ')' :: r6 =>
        match (chomp0 isSpaceChar r6).2 with
        | '=' :: '>' :: r7 => some (l.length - r7.length, String.mk nm, String.mk args)
        | _ => none
      | _ => none
    | _ => none
  | _ => none

/-- Matcher for `const\s+(\w+)\s*=\s*\(([^)]*)\)\s*=>`. -/
def matchJsConstArrow : List Char → Option (Nat × String × String) :=
  matchKwArrow ("const".data)

/-- Matcher for `let\s+(\w+)\s*=\s*\(([^)]*)\)\s*=>`. -/
def matchJsLetArrow : List Char → Option (Nat × String × String) :=
  matchKwArrow ("let".data)

/-- Matcher for `(\w+)\s*\(([^)]*)\)\s*\x7b`: the brace-call JavaScript pattern. -/
def matchJsCallBrace (l : List Char) : Option (Nat × String × String) :=
  match chomp1 isWordChar l with
  | none => none
  | some (nm, r1) =>
  match (chomp0 isSpaceChar r1).2 with
  | '(' :: r2 =>
    let args := r2.takeWhile (fun c => c ≠ ')')
    match r2.drop args.length with
    | ')' :: r3 =>
      match (chomp0 isSpaceChar r3).2 with
      | '\x7b' :: r4 => some (l.length - r4.length, String.mk nm, String.mk args)
      | _ => none
    | _ => none
  | _ => none

/-- Alternation `(public|private|protected)` tried in source order.  The three
literals are pairwise non-prefixes of one another, so at most one can match
at a given position and committing to it is exact. -/
def matchModifier (l : List Char) : Option (List Char) :=
  match dropLit ("public".data) l with
  | some r => some r
  | none =>
  match dropLit ("private".data) l with
  | some r => some r
  | none => dropLit ("protected".data) l

/-- Matcher for the Java pattern `(public|private|protected)\s+\w+\s+(\w+)\s*\(([^)]*)\)`.
Group 2 is the method name, group 3 the argument capture. -/
def matchJavaMethod (l : List Char) : Option (Nat × String × String) :=
  match matchModifier l with
  | none => none
  | some r1 =>
  match chomp1 isSpaceChar r1 with
  | none => none
  | some (_, r2) =>
  match chomp1 isWordChar r2 with
  | none => none
  | some (_, r3) =>
  match chomp1 isSpaceChar r3 with
  | none => none
  | some (_, r4) =>
  match chomp1 isWordChar r4 with
  | none => none
  | some (nm, r5) =>
  match (chomp0 isSpaceChar r5).2 with
  | '(' :: r6 =>
    let args := r6.takeWhile (fun c => c ≠ ')')
    match r6.drop args.length with
    | ')' :: r7 => some (l.length - r7.length, String.mk nm, String.mk args)
    | _ => none
  | _ => none

/-- Matcher for the C/C++ pattern `\w+\s+(\w+)\s*\(([^)]*)\)`. -/
def matchCppFunction (l : List Char) : Option (Nat × String × String) :=
  match chomp1 isWordChar l with
  | none => none
  | some (_, r1) =>
  match chomp1 isSpaceChar r1 with
  | none => none
  | some (_, r2) =>
  match chomp1 isWordChar r2 with
  | none => none
  | some (nm, r3) =>
  match (chomp0 isSpaceChar r3).2 with
  | '(' :: r4 =>
    let args := r4.takeWhile (fun c => c ≠ ')')
    match r4.drop args.length with
    | ')' :: r5 => some (l.length - r5.length, String.mk nm, String.mk args)
    | _ => none
  | _ => none

/-- Matcher for `KW\s+(\w+)`: one alternative of the generic pattern, and the
uniform class pattern (`KW = class`). -/
def matchKwName (kw : List Char) (l : List Char) : Option (Nat × String) :=
  match dropLit kw l with
  | none => none
  | some r1 =>
  match chomp1 isSpaceChar r1 with
  | none => none
  | some (_, r2) =>
  match chomp1 isWordChar r2 with
  | none => none
  | some (nm, r3) => some (l.length - r3.length, String.mk nm)

/-- Matcher for the generic pattern `def\s+(\w+)|function\s+(\w+)|fn\s+(\w+)|fun\s+(\w+)`:
the four alternatives are tried in source order, each in full, exactly as the
`re` engine does at a fixed position.  The emitted name is the (unique)
non-empty capture group, mirroring `next(group for group in match.groups() if group)`. -/
def matchGenericKw (l : List Char) : Option (Nat × String) :=
  match matchKwName ("def".data) l with
  | some r => some r
  | none =>
  match matchKwName ("function".data) l with
  | some r => some r
  | none =>
  match matchKwName ("fn".data) l with
  | some r => some r
  | none => matchKwName ("fun".data) l

/-- Matcher for the uniform class pattern `class\s+(\w+)`. -/
def matchClassDef : List Char → Option (Nat × String) :=
  matchKwName ("class".data)

/-- Scan worker for `re.finditer`.  Every scan step consumes at least one
character, so recursion is structural on a fuel bounded below by the remaining
length; `reFinditer` supplies `fuel = l.length`, which never runs out. -/
def reFinditerAux {α : Type} (m : List Char → Option (Nat × α)) :
    Nat → List Char → Nat → List (Nat × α)
  | 0, _, _ => []
  | _ + 1, [], _ => []
  | fuel + 1, c :: tl, i =>
    match m (c :: tl) with
    | some (len, a) => (i, a) :: reFinditerAux m fuel (tl.drop (len - 1)) (i + max len 1)
    | none => reFinditerAux m fuel tl (i + 1)

/-- `re.finditer`: scan positions left to right, attempt the matcher at each
position, and continue after the end of each (non-overlapping) match.  All
matchers used here consume at least one character; `max len 1` only guards
the degenerate zero-length case. -/
def reFinditer {α : Type} (m : List Char → Option (Nat × α)) (l : List Char) (i : Nat) :
    List (Nat × α) :=
  reFinditerAux m l.length l i

/-- Scan worker for the multiline-anchored `re.finditer`; fuel as in
`reFinditerAux`. -/
def reFinditerMLAux {α : Type} (m : List Char → Option (Nat × α)) :
    Nat → List Char → Nat → Bool → List (Nat × α)
  | 0, _, _, _ => []
  | _ + 1, [], _, _ => []
  | fuel + 1, c :: tl, i, atLineStart =>
    if atLineStart then
      match m (c :: tl) with
      | some (len, a) =>
        (i, a) :: reFinditerMLAux m fuel (tl.drop (len - 1)) (i + max len 1)
          (((c :: tl).take (max len 1)).getLast? = some '\n')
      | none => reFinditerMLAux m fuel tl (i + 1) (c = '\n')
    else reFinditerMLAux m fuel tl (i + 1) (c = '\n')

/-- `re.finditer` with `re.MULTILINE` and a `^`-anchored pattern: the matcher is
attempted only at the start of the string or right after a newline; after a
match, scanning resumes at its end, tracking whether that position begins a
line. -/
def reFinditerML {α : Type} (m : List Char → Option (Nat × α)) (l : List Char) (i : Nat)
    (atLineStart : Bool) : List (Nat × α) :=
  reFinditerMLAux m l.length l i atLineStart

/-- Line number of a match starting at character index `i` of `content`, as the
analyzer computes it everywhere: `content[:match.start()].count(chr(10)) + 1`. -/
def lineOf (content : List Char) (i : Nat) : Nat := (content.take i).count '\n' + 1

/-- Argument-list derivation used by every argument-capturing pattern:
`[arg.strip() for arg in capture.split(",") if arg.strip()]`. -/
def splitArgs (cap : String) : List String :=
  ((splitOnChar ',' cap.data).map (fun a => String.mk (strip a))).filter
    (fun s => !(s == ""))

/-- FunctionRecord: the uniform per-function dictionary built by the extractors. -/
structure FunctionRecord where
  name : String
  line : Nat
  args : List String
  docstring : String
  type : String
deriving Repr, DecidableEq

/-- ClassRecord: the per-class dictionary built by `extract_classes`. -/
structure ClassRecord where
  name : String
  line : Nat
deriving Repr, DecidableEq

/-- Run one argument-capturing pattern over the whole text and build one record
per match, as each regex extractor loop in `code_analyzer.py` does. -/
def runPattern (ty : String) (m : List Char → Option (Nat × String × String))
    (content : String) : List FunctionRecord :=
  (reFinditer m content.data 0).map fun r =>
    { name := r.2.1, line := lineOf content.data r.1, args := splitArgs r.2.2,
      docstring := "", type := ty }

/-- CodeAnalyzer._extract_python_functions_regex: the fallback pattern
`def\s+(\w+)\s*\(([^)]*)\)`. -/
def extract_python_functions_regex (content : String) : List FunctionRecord :=
  runPattern ("function") matchPyDef content

/-- The four JavaScript/TypeScript declaration patterns, in source order. -/
def jsFunctionMatchers : List (List Char → Option (Nat × String × String)) :=
  [matchJsFunction, matchJsConstArrow, matchJsLetArrow, matchJsCallBrace]

/-- CodeAnalyzer._extract_javascript_functions: each pattern is run independently
over the full text and all matches are appended in pattern order. -/
def extract_javascript_functions (content : String) : List FunctionRecord :=
  jsFunctionMatchers.foldl (fun acc m => acc ++ runPattern ("function") m content) []

/-- CodeAnalyzer._extract_java_functions: pattern
`(public|private|protected)\s+\w+\s+(\w+)\s*\(([^)]*)\)`, kind `method`. -/
def extract_java_functions (content : String) : List FunctionRecord :=
  runPattern ("method") matchJavaMethod content

/-- CodeAnalyzer._extract_cpp_functions: pattern `\w+\s+(\w+)\s*\(([^)]*)\)`. -/
def extract_cpp_functions (content : String) : List FunctionRecord :=
  runPattern ("function") matchCppFunction content

/-- CodeAnalyzer._extract_generic_functions: the multi-keyword pattern with no
argument capture (`args` is always the literal empty list).  The `extension`
argument is accepted and ignored, as in the source. -/
def extract_generic_functions (content : String) (extension : String) : List FunctionRecord :=
  (reFinditer matchGenericKw content.data 0).map fun r =>
    { name := r.2, line := lineOf content.data r.1, args := [], docstring := "",
      type := "function" }

/-- CodeAnalyzer.extract_classes: the source selects a pattern by extension but
every branch assigns the same `class\s+(\w+)`, so a single matcher is used. -/
def extract_classes (content : String) (extension : String) : List ClassRecord :=
  (reFinditer matchClassDef content.data 0).map fun r =>
    { name := r.2, line := lineOf content.data r.1 }

/-- A parsed Python function-definition node as `ast.walk` yields it:
name, 1-based line, positional argument names, and optional docstring. -/
structure AstFunctionDef where
  name : String
  lineno : Nat
  args : List String
  docstring : Option String
deriving Repr, DecidableEq

/-- The grammar-aware Python parser.  `ast.parse` is CPython library code,
external to this repository; it is modelled as an oracle argument: `none`
models the parse raising (the `except` branch), `some defs` a successful
parse whose walk yields `defs`. -/
abbrev AstParse := String → Option (List AstFunctionDef)

/-- CodeAnalyzer._extract_python_functions: AST walk on success, regex fallback
when parsing raises. -/
def extract_python_functions (ast_parse : AstParse) (content : String) : List FunctionRecord :=
  match ast_parse content with
  | some defs => defs.map fun d =>
      { name := d.name, line := d.lineno, args := d.args,
        docstring := d.docstring.getD "", type := "function" }
  | none => extract_python_functions_regex content

/-- CodeAnalyzer.extract_functions: dispatch on the file extension. -/
def extract_functions (ast_parse : AstParse) (content : String) (extension : String) :
    List FunctionRecord :=
  if extension = ".py" then extract_python_functions ast_parse content
  else if extension = ".js" || extension = ".ts" then extract_javascript_functions content
  else if extension = ".java" then extract_java_functions content
  else if extension = ".cpp" || extension = ".c" then extract_cpp_functions content
  else extract_generic_functions content extension

/-- Matcher for the Python import pattern `^(import|from)\s+(\w+)` (the anchor is
handled by the multiline scanner); emits `match.group(0).strip()`.  The two
alternatives start with different characters, so trying them in order is exact. -/
def matchPyImport (l : List Char) : Option (Nat × String) :=
  match matchKwName ("import".data) l with
  | some (len, _) => some (len, String.mk (strip (l.take len)))
  | none =>
  match matchKwName ("from".data) l with
  | some (len, _) => some (len, String.mk (strip (l.take len)))
  | none => none

/-- Matcher for the Java import pattern `^import\s+([^;]+);`, emitting
`match.group(0).strip()`.  Because `\s` is contained in `[^;]`, the pattern
matches exactly when the character after `import` is whitespace and at least
two characters precede the first semicolon; the match always extends to that
first semicolon. -/
def matchJavaImport (l : List Char) : Option (Nat × String) :=
  match dropLit ("import".data) l with
  | none => none
  | some r1 =>
  match r1 with
  | [] => none
  | c :: _ =>
    if isSpaceChar c then
      let u := r1.takeWhile (fun d => d ≠ ';')
      if 2 ≤ u.length then
        match r1.drop u.length with
        | ';' :: r2 => some (l.length - r2.length, String.mk (strip (("import".data) ++ u ++ [';'])))
        | _ => none
      else none
    else none

/-- Suffix of the JavaScript import pattern, `from\s+['"]([^'"]+)['"]`, matched at
the start of the input; returns the consumed length.  Greedy matching is exact:
`\s+` is followed by a quote, `[^'"]+` by a quote, and the sets are disjoint. -/
def matchFromClause (l : List Char) : Option Nat :=
  match dropLit ("from".data) l with
  | none => none
  | some r1 =>
  match chomp1 isSpaceChar r1 with
  | none => none
  | some (_, r2) =>
  match r2 with
  | q :: r3 =>
    if q = '\x27' || q = '"' then
      let body := r3.takeWhile (fun d => d ≠ '\x27' && d ≠ '"')
      if body.isEmpty then none
      else
        match r3.drop body.length with
        | q2 :: r4 => if q2 = '\x27' || q2 = '"' then some (l.length - r4.length) else none
        | [] => none
    else none
  | [] => none

/-- Greedy search for the `.*from...` tail of the JavaScript import pattern:
try the `from` clause at offset `j`, then `j - 1`, ..., `0`, mirroring the
backtracking of the greedy `.*` which prefers the rightmost viable `from`. -/
def findFromDesc (rest : List Char) : Nat → Option (Nat × Nat)
  | 0 => (matchFromClause rest).map fun flen => (0, flen)
  | j + 1 =>
    match matchFromClause (rest.drop (j + 1)) with
    | some flen => some (j + 1, flen)
    | none => findFromDesc rest j

/-- Matcher for the JavaScript import pattern `^import\s+.*from\s+['"]([^'"]+)['"]`,
emitting `match.group(0).strip()`.  `.*` does not cross a newline, so the
`from` clause must begin within the current line; shortening the greedy `\s+`
only exposes whitespace positions where `from` cannot start, so maximal-munch
plus a rightmost-first search is exact. -/
def matchJsImport (l : List Char) : Option (Nat × String) :=
  match dropLit ("import".data) l with
  | none => none
  | some r1 =>
  match chomp1 isSpaceChar r1 with
  | none => none
  | some (_, r2) =>
    let region := r2.takeWhile (fun d => d ≠ '\n')
    match findFromDesc r2 region.length with
    | some (j, flen) =>
      let consumed := l.length - r2.length + j + flen
      some (consumed, String.mk (strip (l.take consumed)))
    | none => none

/-- CodeAnalyzer.extract_imports: per-language line-anchored patterns; languages
without a pattern yield the empty list. -/
def extract_imports (content : String) (extension : String) : List String :=
  if extension = ".py" then
    (reFinditerML matchPyImport content.data 0 true).map fun r => r.2
  else if extension = ".js" || extension = ".ts" then
    (reFinditerML matchJsImport content.data 0 true).map fun r => r.2
  else if extension = ".java" then
    (reFinditerML matchJavaImport content.data 0 true).map fun r => r.2
  else []

/-- Python `len(content.splitlines())` (newline-terminated lines; the source
never feeds this to any claim-relevant computation). -/
def pySplitlinesLen (s : String) : Nat :=
  if s.data.isEmpty then 0
  else s.data.count '\n' + (if s.data.getLast? = some '\n' then 0 else 1)

/-- FileRecord: the per-file dictionary built by `analyze_file`. -/
structure FileRecord where
  path : String
  name : String
  extension : String
  language : String
  content : String
  functions : List FunctionRecord
  classes : List ClassRecord
  imports : List String
  line_count : Nat
deriving Repr, DecidableEq

/-- CodeAnalyzer.supported_extensions: the extension-to-language mapping as the
source declares it.  Note `.py`, `.js` and `.ts` are absent. -/
def supported_extensions : List (String × String) :=
  [(".java", "java"), (".cpp", "cpp"), (".c", "c"), (".rs", "rust"), (".go", "go"),
   (".php", "php"), (".rb", "ruby")]

/-- One entry yielded by `Path(root_path).rglob("*")`.  The file system is
external: the walk result is the embedding's input.  `relPath` is
`str(file_path.relative_to(file_path.parent.parent))` (a pure path operation),
`suffix` is `file_path.suffix`, and `content = none` models the read in
`analyze_file` raising (the file is then skipped with a warning). -/
structure FSEntry where
  is_file : Bool
  relPath : String
  name : String
  suffix : String
  content : Option String
deriving Repr, DecidableEq

/-- CodeAnalyzer.analyze_file: build the per-file record, or `none` when the
read fails. -/
def analyze_file (ast_parse : AstParse) (e : FSEntry) : Option FileRecord :=
  match e.content with
  | none => none
  | some content => some
    { path := e.relPath, name := e.name, extension := e.suffix,
      language := (List.lookup e.suffix supported_extensions).getD ("unknown"),
      content := content,
      functions := extract_functions ast_parse content e.suffix,
      classes := extract_classes content e.suffix,
      imports := extract_imports content e.suffix,
      line_count := pySplitlinesLen content }

/-- ProjectAnalysis: the aggregate dictionary built by `analyze_directory`.
Python's `languages_used` set (converted to a list at the end) is modelled as a
duplicate-free list in insertion order; the claims only inspect membership.
The `structure` key is initialized to an empty dict and never touched, so it
is omitted. -/
structure ProjectAnalysis where
  project_name : String
  files : List FileRecord
  total_files : Nat
  total_functions : Nat
  total_classes : Nat
  languages_used : List String
deriving Repr, DecidableEq

/-- The analysis dictionary as initialized at the top of `analyze_directory`
(`project_name` is `Path(root_path).name`, a pure path operation supplied by
the caller of the embedding). -/
def initialAnalysis (root_name : String) : ProjectAnalysis :=
  { project_name := root_name, files := [], total_files := 0, total_functions := 0,
    total_classes := 0, languages_used := [] }

/-- Set insertion for the languages_used set. -/
def addLang (l : List String) (tag : String) : List String :=
  if tag ∈ l then l else l ++ [tag]

/-- One iteration of the walk loop in `analyze_directory`. -/
def analyzeStep (ast_parse : AstParse) (a : ProjectAnalysis) (e : FSEntry) : ProjectAnalysis :=
  if e.is_file && (List.lookup e.suffix supported_extensions).isSome then
    match analyze_file ast_parse e with
    | some fr =>
      { a with files := a.files ++ [fr],
               total_files := a.total_files + 1,
               total_functions := a.total_functions + fr.functions.length,
               total_classes := a.total_classes + fr.classes.length,
               languages_used := addLang a.languages_used
                 ((List.lookup e.suffix supported_extensions).getD ("unknown")) }
    | none => a
  else a

/-- CodeAnalyzer.analyze_directory: fold the walk through the loop body.  For a
root that does not exist or is not a directory, `Path(root).rglob("*")` yields
nothing, so `walk = []`. -/
def analyze_directory (ast_parse : AstParse) (root_name : String) (walk : List FSEntry) :
    ProjectAnalysis :=
  walk.foldl (analyzeStep ast_parse) (initialAnalysis root_name)

/-- One line of the file listing in `LLMManager._create_code_summary`:
the path, annotated (when the file has functions) with the names of its first
five functions. -/
def fileEntryLine (f : FileRecord) : String :=
  "\n- " ++ f.path ++
    (if f.functions.isEmpty then ""
     else " (Functions: " ++ pyJoin (", ") ((f.functions.take 5).map fun g => g.name) ++ ")")

/-- The header f-string of `LLMManager._create_code_summary`. -/
def summaryHeader (ctx : ProjectAnalysis) : String :=
  "\nProject: " ++ ctx.project_name ++
  "\nTotal Files: " ++ toString ctx.total_files ++
  "\nLanguages: " ++ pyJoin (", ") ctx.languages_used ++
  "\nTotal Functions: " ++ toString ctx.total_functions ++
  "\nTotal Classes: " ++ toString ctx.total_classes ++
  "\n\nMain Files:\n"

/-- LLMManager._create_code_summary: header, then the first ten files each with
at most five function names, then - when more than ten files exist - the
trailing remainder note. -/
def create_code_summary (ctx : ProjectAnalysis) : String :=
  let base := (ctx.files.take 10).foldl (fun acc f => acc ++ fileEntryLine f) (summaryHeader ctx)
  if 10 < ctx.files.length then
    base ++ "\n... and " ++ toString (ctx.files.length - 10) ++ " more files"
  else base

/-- Outcome of the CLI `main` in `code_wiki_generator.py`, up to the boundary of
the core: either the root-existence check fails and main prints the error and
returns before any analysis, or the analysis is produced. -/
inductive CliOutcome where
  | folderMissing (msg : String)
  | generated (analysis : ProjectAnalysis)
deriving Repr, DecidableEq

/-- The validation-then-analyze flow of `main`: `os.path.exists(args.folder)` is
an external file-system query, supplied as `folderExists`. -/
def run_main (ast_parse : AstParse) (folder : String) (folderExists : Bool)
    (walk : List FSEntry) : CliOutcome :=
  if folderExists = false then
    CliOutcome.folderMissing ("❌ Error: Folder \x27" ++ folder ++ "\x27 does not exist")
  else CliOutcome.generated (analyze_directory ast_parse folder walk)

/-- The everywhere-failing parse oracle, used for concrete inputs where the
grammar-aware path is irrelevant or must fail. -/
def pNone : AstParse := fun _ => none

/-- The a.py source of the spec's example scenario. -/
def pySample : String :=
  "def foo(x, y):\n    \"\"\"doc\"\"\"\n    pass\nclass Bar:\n    pass"

/-- Walk entry for a directory tree containing exactly `a.py` with the example
content. -/
def apyEntry : FSEntry :=
  { is_file := true, relPath := "proj/a.py", name := "a.py", suffix := ".py",
    content := some pySample }

/-- Walk entry for a subdirectory (yielded by rglob, filtered out by is_file). -/
def dirOnlyEntry : FSEntry :=
  { is_file := false, relPath := "proj/sub", name := "sub", suffix := "",
    content := none }

/-- Walk entry for a Java file with empty content. -/
def javaEntry : FSEntry :=
  { is_file := true, relPath := "proj/A.java", name := "A.java", suffix := ".java",
    content := some "" }

/-- Walk entry for a file whose read fails. -/
def badEntry : FSEntry :=
  { is_file := true, relPath := "proj/B.rb", name := "B.rb", suffix := ".rb",
    content := none }

/-- The FileRecord `analyze_directory` produces for `javaEntry`. -/
def javaRec : FileRecord :=
  { path := "proj/A.java", name := "A.java", extension := ".java", language := "java",
    content := "", functions := [], classes := [], imports := [], line_count := 0 }

/-- A minimal FileRecord for summary bounding tests. -/
def mkPlainFile (n : Nat) : FileRecord :=
  { path := "f" ++ toString n, name := "f" ++ toString n, extension := ".java",
    language := "java", content := "", functions := [], classes := [], imports := [],
    line_count := 0 }

/-- A fifteen-file ProjectAnalysis for the summary bounding scenario. -/
def summaryCtx15 : ProjectAnalysis :=
  { project_name := "p", files := (List.range 15).map mkPlainFile, total_files := 15,
    total_functions := 0, total_classes := 0, languages_used := ["java"] }

/-- Bool test that `suf` is a suffix of `s`. -/
def strEndsWith (suf s : String) : Bool := List.isSuffixOf suf.data s.data

/-- The extensions `analyze_directory` can accept: exactly the keys of
`supported_extensions`. -/
def supportedSuffixes : List String :=
  [".java", ".cpp", ".c", ".rs", ".go", ".php", ".rb"]

/-- The language tags `supported_extensions` can produce. -/
def supportedTags : List String :=
  ["java", "cpp", "c", "rust", "go", "php", "ruby"]

/-- Concatenation of a list of strings. -/
def strConcat : List String → String
  | [] => ""
  | x :: t => x ++ strConcat t

/-- An invariant of the walk loop: the three counters track the record list,
every record carries a supported extension, and every observed language tag
comes from the mapping. -/
def StepInv (a : ProjectAnalysis) : Prop :=
  a.total_files = a.files.length ∧
  a.total_functions = (a.files.map fun f => f.functions.length).sum ∧
  a.total_classes = (a.files.map fun f => f.classes.length).sum ∧
  (∀ f ∈ a.files, f.extension ∈ supportedSuffixes) ∧
  (∀ t ∈ a.languages_used, t ∈ supportedTags)

/-- A syntactically invalid Python source (unclosed parenthesis before a colon),
on which `ast.parse` raises. -/
def pyBadSrc : String := "def broken(:\n    pass\ndef ok(a, b):\n    pass"

/-! ## Helper lemmas -/

/-- An invariant preserved by each step is preserved by the fold. -/
theorem foldl_inv {α β : Type} (f : α → β → α) (Inv : α → Prop)
    (step : ∀ a b, Inv a → Inv (f a b)) :
    ∀ (l : List β) (a : α), Inv a → Inv (l.foldl f a)
  | [], _, h => h
  | b :: l, a, h => foldl_inv f Inv step l (f a b) (step a b h)

/-- A successful lookup in `supported_extensions` means the key is a supported
suffix and the value a supported tag. -/
theorem lookup_mem (s t : String) (h : List.lookup s supported_extensions = some t) :
    s ∈ supportedSuffixes ∧ t ∈ supportedTags := by
  simp only [supported_extensions, List.lookup] at h
  repeat' split at h
  all_goals simp_all [supportedSuffixes, supportedTags]

/-- Membership after a set insertion. -/
theorem mem_addLang {l : List String} {tag t : String} (h : t ∈ addLang l tag) :
    t ∈ l ∨ t = tag := by
  unfold addLang at h
  split at h
  · exact Or.inl h
  · rcases List.mem_append.mp h with h | h
    · exact Or.inl h
    · exact Or.inr (List.mem_singleton.mp h)

/-- A record produced by `analyze_file` carries the entry's suffix as its
extension. -/
theorem analyze_file_extension (P : AstParse) (e : FSEntry) (fr : FileRecord)
    (h : analyze_file P e = some fr) : fr.extension = e.suffix := by
  unfold analyze_file at h
  split at h
  · exact absurd h (by simp)
  · injection h with h
    rw [← h]

/-- The walk-loop invariant is preserved by one iteration. -/
theorem analyzeStep_inv (P : AstParse) (a : ProjectAnalysis) (e : FSEntry)
    (h : StepInv a) : StepInv (analyzeStep P a e) := by
  obtain ⟨h1, h2, h3, h4, h5⟩ := h
  unfold analyzeStep
  split
  · rename_i hcond
    split
    · rename_i fr hfile
      have hsome : (List.lookup e.suffix supported_extensions).isSome = true :=
        (Bool.and_eq_true _ _).mp hcond |>.2
      obtain ⟨t, ht⟩ := Option.isSome_iff_exists.mp hsome
      obtain ⟨hs, htag⟩ := lookup_mem e.suffix t ht
      refine ⟨by simp [h1], by simp [h2], by simp [h3], ?_, ?_⟩
      · intro f hf
        rcases List.mem_append.mp hf with hf | hf
        · exact h4 f hf
        · rw [List.mem_singleton.mp hf, analyze_file_extension P e fr hfile]
          exact hs
      · intro t' ht'
        rcases mem_addLang ht' with ht' | ht'
        · exact h5 t' ht'
        · rw [ht', ht]
          exact htag
    · exact ⟨h1, h2, h3, h4, h5⟩
  · exact ⟨h1, h2, h3, h4, h5⟩

/-- The walk-loop invariant holds of every analysis `analyze_directory` returns. -/
theorem analyze_directory_inv (P : AstParse) (root : String) (walk : List FSEntry) :
    StepInv (analyze_directory P root walk) :=
  foldl_inv (analyzeStep P) StepInv (analyzeStep_inv P) walk (initialAnalysis root)
    ⟨rfl, rfl, rfl, by simp [initialAnalysis], by simp [initialAnalysis]⟩

/-- Records built by an argument-capturing pattern have empty docstring. -/
theorem runPattern_docstring (ty : String) (m : List Char → Option (Nat × String × String))
    (content : String) (r : FunctionRecord) (h : r ∈ runPattern ty m content) :
    r.docstring = "" := by
  simp only [runPattern, List.mem_map] at h
  obtain ⟨x, _, rfl⟩ := h
  rfl

/-- Records built by the generic pattern have empty docstring and empty args. -/
theorem generic_docstring_args (content ext : String) (r : FunctionRecord)
    (h : r ∈ extract_generic_functions content ext) : r.docstring = "" ∧ r.args = [] := by
  simp only [extract_generic_functions, List.mem_map] at h
  obtain ⟨x, _, rfl⟩ := h
  exact ⟨rfl, rfl⟩

/-- The JavaScript extractor is the concatenation of its four patterns' runs, in
source order. -/
theorem js_concat (content : String) :
    extract_javascript_functions content =
      runPattern ("function") matchJsFunction content ++
      runPattern ("function") matchJsConstArrow content ++
      runPattern ("function") matchJsLetArrow content ++
      runPattern ("function") matchJsCallBrace content := by
  simp [extract_javascript_functions, jsFunctionMatchers, List.append_assoc]

/-- Records built by the JavaScript extractor have empty docstring. -/
theorem js_docstring (content : String) (r : FunctionRecord)
    (h : r ∈ extract_javascript_functions content) : r.docstring = "" := by
  rw [js_concat] at h
  simp only [List.mem_append] at h
  rcases h with ((h | h) | h) | h
  all_goals exact runPattern_docstring _ _ _ r h

/-- Folding the entry lines from a seed appends their concatenation. -/
theorem foldl_entries (fs : List FileRecord) (s : String) :
    fs.foldl (fun acc f => acc ++ fileEntryLine f) s = s ++ strConcat (fs.map fileEntryLine) := by
  induction fs generalizing s with
  | nil => simp [strConcat, String.append_empty]
  | cons f t ih => simp [strConcat, ih, String.append_assoc]

/-- An entry line depends only on the first five functions of the record. -/
theorem fileEntryLine_take5 (f : FileRecord) :
    fileEntryLine f = fileEntryLine { f with functions := f.functions.take 5 } := by
  unfold fileEntryLine
  cases hf : f.functions with
  | nil => simp [hf]
  | cons x t => simp [hf, List.take_take]

/-- A supported suffix is not one of the extensions with dedicated extraction
paths. -/
theorem supported_not_py (s : String) (h : s ∈ supportedSuffixes) :
    s ∉ [".py", ".js", ".ts"] := by
  simp only [supportedSuffixes, List.mem_cons, List.not_mem_nil, or_false] at h
  rcases h with rfl | rfl | rfl | rfl | rfl | rfl | rfl <;> decide

/-! ## Claim theorems -/

/-- C1: the spec's example scenario requires a directory containing `a.py` (with
`def foo(x, y)` carrying docstring "doc" and `class Bar`) to yield a FileRecord
with the corresponding FunctionRecord and ClassRecord.  The code does not:
`.py` is absent from `supported_extensions` (the dict has a gap where the entry
was, and dedicated Python extraction paths exist but are unreachable from the
walk), so `analyze_directory` skips `a.py` entirely and returns the untouched
initial analysis with no FileRecord at all. -/
theorem apy_file_skipped :
    analyze_directory pNone "proj" [apyEntry] = initialAnalysis "proj" := by
  decide

/-- C2: after every walk, `total_functions` equals the sum over the files of
their function counts, and likewise for classes. -/
theorem analyze_totals_consistent (P : AstParse) (root : String) (walk : List FSEntry) :
    (analyze_directory P root walk).total_functions =
      ((analyze_directory P root walk).files.map fun f => f.functions.length).sum ∧
    (analyze_directory P root walk).total_classes =
      ((analyze_directory P root walk).files.map fun f => f.classes.length).sum :=
  ⟨(analyze_directory_inv P root walk).2.1, (analyze_directory_inv P root walk).2.2.1⟩

/-- C3: in every regex-based extraction path that emits a line field (Python
fallback, JavaScript/TypeScript, Java, C/C++, generic, classes), the emitted
line numbers are exactly `1 + (newlines strictly before the match start)`, in
match order; in particular a declaration on 1-based line k preceded by blank
lines or a multi-line comment is reported with line exactly k (import
extraction emits raw strings with no line field, so the claim is vacuous
there). -/
theorem regex_line_numbers :
    (∀ content : String,
      ((extract_python_functions_regex content).map fun r => r.line) =
        ((reFinditer matchPyDef content.data 0).map fun m =>
          (content.data.take m.1).count '\n' + 1) ∧
      ((extract_java_functions content).map fun r => r.line) =
        ((reFinditer matchJavaMethod content.data 0).map fun m =>
          (content.data.take m.1).count '\n' + 1) ∧
      ((extract_cpp_functions content).map fun r => r.line) =
        ((reFinditer matchCppFunction content.data 0).map fun m =>
          (content.data.take m.1).count '\n' + 1) ∧
      ((extract_javascript_functions content).map fun r => r.line) =
        (((reFinditer matchJsFunction content.data 0).map fun m =>
           (content.data.take m.1).count '\n' + 1) ++
         ((reFinditer matchJsConstArrow content.data 0).map fun m =>
           (content.data.take m.1).count '\n' + 1) ++
         ((reFinditer matchJsLetArrow content.data 0).map fun m =>
           (content.data.take m.1).count '\n' + 1) ++
         ((reFinditer matchJsCallBrace content.data 0).map fun m =>
           (content.data.take m.1).count '\n' + 1)) ∧
      (∀ ext : String, ((extract_generic_functions content ext).map fun r => r.line) =
        ((reFinditer matchGenericKw content.data 0).map fun m =>
          (content.data.take m.1).count '\n' + 1)) ∧
      (∀ ext : String, ((extract_classes content ext).map fun r => r.line) =
        ((reFinditer matchClassDef content.data 0).map fun m =>
          (content.data.take m.1).count '\n' + 1))) ∧
    extract_python_functions_regex ("\n\n\ndef f(x):\n    pass") =
      [⟨"f", 4, ["x"], "", "function"⟩] ∧
    extract_cpp_functions ("/* a\n b */\nint foo(int x);") =
      [⟨"foo", 3, ["int x"], "", "function"⟩] := by
  refine ⟨fun content => ⟨?_, ?_, ?_, ?_, fun ext => ?_, fun ext => ?_⟩, by decide, by decide⟩
  · simp [extract_python_functions_regex, runPattern, List.map_map, lineOf]
  · simp [extract_java_functions, runPattern, List.map_map, lineOf]
  · simp [extract_cpp_functions, runPattern, List.map_map, lineOf]
  · rw [js_concat]
    simp only [runPattern, List.map_append, List.map_map]
    rfl
  · simp [extract_generic_functions, List.map_map, lineOf]
  · simp [extract_classes, List.map_map, lineOf]

/-- C4: when the grammar-aware Python parse fails, `extract_functions` with the
`.py` tag returns exactly the fallback-regex records of the same text, each
with empty docstring (no exception is modelled: the embedding is total). -/
theorem python_fallback_on_parse_failure (P : AstParse) (content : String)
    (h : P content = none) :
    extract_functions P content ".py" = extract_python_functions_regex content ∧
    ∀ r ∈ extract_functions P content ".py", r.docstring = "" := by
  have he : extract_functions P content ".py" = extract_python_functions_regex content := by
    simp [extract_functions, extract_python_functions, h]
  refine ⟨he, fun r hr => ?_⟩
  rw [he] at hr
  exact runPattern_docstring _ _ _ r hr

/-- Witness for C4 at a concrete syntactically invalid source. -/
theorem python_fallback_witness :
    extract_functions pNone pyBadSrc ".py" = extract_python_functions_regex pyBadSrc :=
  (python_fallback_on_parse_failure pNone pyBadSrc rfl).1

/-- C5 counterexample: for a root that does not exist, `rglob` yields nothing
and `analyze_directory` returns the plain initial analysis - the very same
value it returns for a real tree that merely contains no eligible file (here:
one subdirectory entry).  No distinct, identifiable failure is surfaced. -/
theorem missing_root_indistinguishable :
    analyze_directory pNone "proj" [] = initialAnalysis "proj" ∧
    analyze_directory pNone "proj" [] = analyze_directory pNone "proj" [dirOnlyEntry] := by
  exact ⟨rfl, by decide⟩

/-- C5 (amended): `analyze_directory` performs no root validation and returns an
ordinary empty analysis for an empty walk; the fail-fast existence check lives
in the CLI `main`, which reports the missing folder and returns before any
analysis is constructed. -/
theorem cli_validates_root (P : AstParse) (folder : String) (walk : List FSEntry) :
    run_main P folder false walk =
      CliOutcome.folderMissing ("❌ Error: Folder \x27" ++ folder ++ "\x27 does not exist") ∧
    analyze_directory P folder [] = initialAnalysis folder :=
  ⟨rfl, rfl⟩

/-- C6 counterexample: for the fifteen-file analysis the projected summary's
trailing note is "... and 5 more files" - with a space after the ellipsis -
so it does not read "...and 5 more files" as the claim states. -/
theorem summary_note_text :
    strEndsWith ("... and 5 more files") (create_code_summary summaryCtx15) = true ∧
    strEndsWith ("...and 5 more files") (create_code_summary summaryCtx15) = false := by
  exact ⟨by decide, by decide⟩

/-- C6 (amended): the projected summary lists at most the first 10 files, each
annotated with at most its first 5 function names, and when more than 10 files
exist it ends with the note "... and K more files" (space after the ellipsis)
carrying the exact remainder count K = total - 10. -/
theorem summary_bounded (ctx : ProjectAnalysis) (h : 10 < ctx.files.length) :
    create_code_summary ctx =
      summaryHeader ctx ++ strConcat ((ctx.files.take 10).map fileEntryLine) ++
        "\n... and " ++ toString (ctx.files.length - 10) ++ " more files" ∧
    ∀ f : FileRecord, fileEntryLine f = fileEntryLine { f with functions := f.functions.take 5 } := by
  constructor
  · simp only [create_code_summary]
    rw [if_pos h, foldl_entries]
  · exact fileEntryLine_take5

/-- Witness for C6 (amended) at the fifteen-file analysis: ten files listed,
note counting the remaining five. -/
theorem summary_bounded_witness :
    create_code_summary summaryCtx15 =
      summaryHeader summaryCtx15 ++ strConcat ((summaryCtx15.files.take 10).map fileEntryLine) ++
        "\n... and " ++ toString (summaryCtx15.files.length - 10) ++ " more files" :=
  (summary_bounded summaryCtx15 (by decide)).1

/-- C7: the JavaScript/TypeScript extractor runs its four patterns independently
over the full text and concatenates all matches in pattern order with no
deduplication; `function f(a) ⦃` is matched by both the `function` pattern and
the brace-call pattern and yields two identical records. -/
theorem js_patterns_concat_no_dedup :
    (∀ content : String, extract_javascript_functions content =
      runPattern ("function") matchJsFunction content ++
      runPattern ("function") matchJsConstArrow content ++
      runPattern ("function") matchJsLetArrow content ++
      runPattern ("function") matchJsCallBrace content) ∧
    extract_javascript_functions ("function f(a) \x7b\n\x7d") =
      [⟨"f", 1, ["a"], "", "function"⟩, ⟨"f", 1, ["a"], "", "function"⟩] :=
  ⟨js_concat, by decide⟩

/-- C8: every FileRecord the walk produces has one of the seven supported
extensions - never `.py`, `.js` or `.ts` - and `languages_used` only ever
contains the seven corresponding tags (so never a Python or JavaScript or
TypeScript tag). -/
theorem only_supported_extensions (P : AstParse) (root : String) (walk : List FSEntry) :
    (∀ f ∈ (analyze_directory P root walk).files,
      f.extension ∈ supportedSuffixes ∧ f.extension ∉ [".py", ".js", ".ts"]) ∧
    ∀ t ∈ (analyze_directory P root walk).languages_used, t ∈ supportedTags := by
  have hinv := analyze_directory_inv P root walk
  refine ⟨fun f hf => ?_, hinv.2.2.2.2⟩
  have hs := hinv.2.2.2.1 f hf
  exact ⟨hs, supported_not_py f.extension hs⟩

/-- Witness for C8: the record of a concrete `.java` file. -/
theorem only_supported_extensions_witness :
    (javaRec.extension ∈ supportedSuffixes ∧ javaRec.extension ∉ [".py", ".js", ".ts"]) ∧
    ("java" ∈ supportedTags) :=
  ⟨(only_supported_extensions pNone "proj" [javaEntry]).1 javaRec (by decide),
   (only_supported_extensions pNone "proj" [javaEntry]).2 ("java") (by decide)⟩

/-- C9: every record from a regex-based extraction path has empty docstring, and
the generic multi-keyword path additionally always produces an empty args list. -/
theorem regex_docstrings_empty (content : String) :
    (∀ r ∈ extract_python_functions_regex content, r.docstring = "") ∧
    (∀ r ∈ extract_javascript_functions content, r.docstring = "") ∧
    (∀ r ∈ extract_java_functions content, r.docstring = "") ∧
    (∀ r ∈ extract_cpp_functions content, r.docstring = "") ∧
    ∀ ext : String, ∀ r ∈ extract_generic_functions content ext,
      r.docstring = "" ∧ r.args = [] :=
  ⟨fun r h => runPattern_docstring _ _ _ r h,
   fun r h => js_docstring content r h,
   fun r h => runPattern_docstring _ _ _ r h,
   fun r h => runPattern_docstring _ _ _ r h,
   fun ext r h => generic_docstring_args content ext r h⟩

/-- Witness for C9: one concrete record per regex path. -/
theorem regex_docstrings_empty_witness :
    (⟨"f", 1, ["x"], "", "function"⟩ : FunctionRecord).docstring = "" ∧
    (⟨"g", 1, ["y"], "", "function"⟩ : FunctionRecord).docstring = "" ∧
    (⟨"h", 1, ["z"], "", "method"⟩ : FunctionRecord).docstring = "" ∧
    (⟨"h", 1, ["z"], "", "function"⟩ : FunctionRecord).docstring = "" ∧
    ((⟨"m", 1, [], "", "function"⟩ : FunctionRecord).docstring = "" ∧
     (⟨"m", 1, [], "", "function"⟩ : FunctionRecord).args = []) :=
  ⟨(regex_docstrings_empty ("def f(x)")).1 _ (by decide),
   (regex_docstrings_empty ("function g(y)")).2.1 _ (by decide),
   (regex_docstrings_empty ("public int h(z)")).2.2.1 _ (by decide),
   (regex_docstrings_empty ("int h(z)")).2.2.2.1 _ (by decide),
   (regex_docstrings_empty ("fn m()")).2.2.2.2 (".go") _ (by decide)⟩

/-- C10: after every walk `total_files` equals the number of FileRecords, and an
entry whose read fails (content unavailable) leaves the analysis - records and
counter alike - completely unchanged. -/
theorem total_files_eq_length (P : AstParse) (root : String) (walk : List FSEntry) :
    (analyze_directory P root walk).total_files =
      (analyze_directory P root walk).files.length ∧
    ∀ (a : ProjectAnalysis) (e : FSEntry), e.content = none → analyzeStep P a e = a := by
  refine ⟨(analyze_directory_inv P root walk).1, fun a e h => ?_⟩
  unfold analyzeStep
  split
  · have hn : analyze_file P e = none := by
      unfold analyze_file
      rw [h]
    rw [hn]
  · rfl

/-- Witness for C10: a walk with one unreadable file and one Java file. -/
theorem total_files_eq_length_witness :
    (analyze_directory pNone "proj" [badEntry, javaEntry]).total_files =
      (analyze_directory pNone "proj" [badEntry, javaEntry]).files.length ∧
    analyzeStep pNone (initialAnalysis "proj") badEntry = initialAnalysis "proj" :=
  ⟨(total_files_eq_length pNone "proj" [badEntry, javaEntry]).1,
   (total_files_eq_length pNone "proj" [badEntry, javaEntry]).2 (initialAnalysis "proj")
     badEntry rfl⟩

end WikiGen


